import Mathlib

/-!
# Housing Compass recommendation engine — verification

Shallow embedding of the pure core of the Housing Compass application
(`appV3.py` / `appV4.py`, whose core functions are identical): the input
normalizer `normalize_inputs`, the bucket determiner `determine_buckets`,
the priority overlay `apply_priority_overlay`, and the submission pipeline
that halts when the normalized authority is `Unsure`.

Python values are modelled as follows: the four answer enumerations and the
six policy categories become inductive types; the Python `set` of buckets
becomes a duplicate-free `List` manipulated only through a guarded insert
(`addUnique`, the model of `set.add` / `if x not in l: l.append(x)`) and
membership tests, which captures every observation the source makes of the
set; Python's substring test `needle in hay` becomes `containsSubstr`;
Python's `sorted` over category labels becomes an insertion sort by the
lexicographic order on the label's character list.
-/

namespace HousingCompass

/-- Normalized legal-authority codes (question 1). -/
inductive Authority
  | Strong
  | Limited
  | Unsure
deriving DecidableEq, Fintype

/-- Normalized municipal-capacity codes (question 2). -/
inductive Capacity
  | Strong
  | Moderate
  | Minimal
deriving DecidableEq, Fintype

/-- Normalized housing-market codes (question 3). -/
inductive Market
  | Hot
  | Stable
  | Weak
deriving DecidableEq, Fintype

/-- Normalized primary-challenge codes (question 4). -/
inductive Challenge
  | Supply
  | Affordability
  | Quality
  | Multiple
deriving DecidableEq, Fintype

/-- The six policy-tool categories (FB, PS, RS, DI, FA, TP). -/
inductive PolicyCategory
  | FB
  | PS
  | RS
  | DI
  | FA
  | TP
deriving DecidableEq, Fintype

/-- The label string of each category, exactly as in the Python source. -/
def label : PolicyCategory → String
  | PolicyCategory.FB => "Foundation-Building (FB)"
  | PolicyCategory.PS => "Preservation & Stabilization (PS)"
  | PolicyCategory.RS => "Regulatory Supply (RS)"
  | PolicyCategory.DI => "Development Incentives (DI)"
  | PolicyCategory.FA => "Financial Assistance (FA)"
  | PolicyCategory.TP => "Tenant Protections (TP)"

/-- Does the character list `hay` start with `needle`? -/
def startsWithChars : List Char → List Char → Bool
  | [], _ => true
  | _ :: _, [] => false
  | a :: as, b :: bs => a == b && startsWithChars as bs

/-- Does `needle` occur as a contiguous run inside `hay`? -/
def occursIn (needle : List Char) : List Char → Bool
  | [] => startsWithChars needle []
  | c :: cs => startsWithChars needle (c :: cs) || occursIn needle cs

/-- Python's substring test `needle in hay` on strings. -/
def containsSubstr (needle hay : String) : Bool :=
  occursIn needle.data hay.data

/-- Lexicographic order on character lists (Python string comparison). -/
def lexLe : List Char → List Char → Bool
  | [], _ => true
  | _ :: _, [] => false
  | a :: as, b :: bs => if a = b then lexLe as bs else decide (a < b)

/-- Label comparison used by Python's `sorted` over category labels. -/
def labelLe (x y : PolicyCategory) : Bool :=
  lexLe (label x).data (label y).data

/-- Insert into a list sorted by `labelLe`. -/
def insertByLabel (x : PolicyCategory) : List PolicyCategory → List PolicyCategory
  | [] => [x]
  | y :: ys => if labelLe x y then x :: y :: ys else y :: insertByLabel x ys

/-- Insertion sort by `labelLe`: the model of Python `sorted(buckets)`. -/
def sortByLabel : List PolicyCategory → List PolicyCategory
  | [] => []
  | x :: xs => insertByLabel x (sortByLabel xs)

/-- The authority line of `normalize_inputs`. -/
def authority_code (authority : String) : Authority :=
  if containsSubstr "Unsure" authority then Authority.Unsure
  else if containsSubstr "Limited" authority then Authority.Limited
  else Authority.Strong

/-- The capacity line of `normalize_inputs`. -/
def capacity_code (capacity : String) : Capacity :=
  if containsSubstr "Minimal" capacity then Capacity.Minimal
  else if containsSubstr "Moderate" capacity then Capacity.Moderate
  else Capacity.Strong

/-- The market line of `normalize_inputs`. -/
def market_code (market : String) : Market :=
  if containsSubstr "Weak" market then Market.Weak
  else if containsSubstr "Stable" market then Market.Stable
  else Market.Hot

/-- The challenge line of `normalize_inputs`. -/
def challenge_code_of (challenge : String) : Challenge :=
  if containsSubstr "Multiple" challenge then Challenge.Multiple
  else if containsSubstr "Quality" challenge then Challenge.Quality
  else if containsSubstr "Affordability" challenge then Challenge.Affordability
  else Challenge.Supply

/-- `normalize_inputs` from the source: each raw answer string is classified
by substring containment with first-match-wins precedence and a per-field
default. -/
def normalize_inputs (authority capacity market challenge : String) :
    Authority × Capacity × Market × Challenge :=
  (authority_code authority, capacity_code capacity,
   market_code market, challenge_code_of challenge)

/-- Python `set.add` (and the overlay's `if x not in l: l.append(x)`):
append an element unless it is already present. -/
def addUnique (s : List PolicyCategory) (x : PolicyCategory) : List PolicyCategory :=
  if x ∈ s then s else s ++ [x]

/-- Note returned by the minimal-capacity branch of `determine_buckets`. -/
def minimalNote : String :=
  "Minimal capacity: prioritize low-cost/no-cost foundation-building activities."

/-- Note returned by the weak-market branch of `determine_buckets`. -/
def weakNote : String :=
  "Weak market: prioritize foundation-building; add preservation if capacity and quality risk exist."

/-- Note returned by the general branch of `determine_buckets`. -/
def coreNote : String :=
  "Recommendation generated using core logic."

/-- The `base_order` list of the source. -/
def baseOrder : List PolicyCategory :=
  [PolicyCategory.FB, PolicyCategory.PS, PolicyCategory.RS,
   PolicyCategory.DI, PolicyCategory.FA, PolicyCategory.TP]

/-- `determine_buckets` from the source: minimal-capacity override, then the
weak-market baseline (returned sorted by label, Python `sorted`), then the
challenge-keyed general rules filtered through `base_order`. -/
def determine_buckets (authority : Authority) (capacity : Capacity)
    (market : Market) (challenge : Challenge) :
    List PolicyCategory × String :=
  if capacity = Capacity.Minimal then
    ([PolicyCategory.FB], minimalNote)
  else if market = Market.Weak then
    let buckets := addUnique [] PolicyCategory.FB
    let buckets :=
      if (capacity = Capacity.Moderate ∨ capacity = Capacity.Strong) ∧
          (challenge = Challenge.Quality ∨ challenge = Challenge.Multiple) then
        addUnique buckets PolicyCategory.PS
      else buckets
    (sortByLabel buckets, weakNote)
  else
    let limited_authority : Bool := authority = Authority.Limited
    let buckets : List PolicyCategory := []
    let buckets :=
      if challenge = Challenge.Supply then
        if limited_authority then addUnique buckets PolicyCategory.DI
        else addUnique (addUnique buckets PolicyCategory.RS) PolicyCategory.DI
      else buckets
    let buckets :=
      if challenge = Challenge.Affordability then
        let buckets := addUnique buckets PolicyCategory.FA
        let buckets :=
          if authority = Authority.Strong then addUnique buckets PolicyCategory.TP
          else buckets
        let buckets :=
          if !limited_authority then addUnique buckets PolicyCategory.RS
          else buckets
        addUnique buckets PolicyCategory.DI
      else buckets
    let buckets :=
      if challenge = Challenge.Quality then
        let buckets := addUnique buckets PolicyCategory.PS
        let buckets :=
          if authority = Authority.Strong then addUnique buckets PolicyCategory.RS
          else buckets
        addUnique buckets PolicyCategory.DI
      else buckets
    let buckets :=
      if challenge = Challenge.Multiple then
        let buckets :=
          if capacity = Capacity.Moderate ∨ capacity = Capacity.Strong then
            addUnique buckets PolicyCategory.PS
          else buckets
        let buckets := addUnique buckets PolicyCategory.FA
        if authority = Authority.Strong then
          addUnique (addUnique (addUnique buckets PolicyCategory.RS)
            PolicyCategory.DI) PolicyCategory.TP
        else addUnique buckets PolicyCategory.DI
      else buckets
    (baseOrder.filter (fun b => b ∈ buckets), coreNote)

/-- The `priority_order` list built by `apply_priority_overlay`: the
if/elif dispatch on the challenge code, then conditional appends keyed on
membership in the bucket set. -/
def priorityOf (challenge_code : Challenge) (bucket_set : List PolicyCategory) :
    List PolicyCategory :=
  match challenge_code with
  | Challenge.Affordability =>
    (if PolicyCategory.FA ∈ bucket_set then [PolicyCategory.FA] else []) ++
    (if PolicyCategory.TP ∈ bucket_set then [PolicyCategory.TP] else [])
  | Challenge.Supply =>
    (if PolicyCategory.RS ∈ bucket_set then [PolicyCategory.RS] else []) ++
    (if PolicyCategory.DI ∈ bucket_set then [PolicyCategory.DI] else [])
  | _ => []

/-- `apply_priority_overlay` from the source: compute `priority_order`, then
build `final_order` by appending first the priorities and then the buckets,
each guarded against duplicates. -/
def apply_priority_overlay (challenge_code : Challenge)
    (buckets : List PolicyCategory) :
    List PolicyCategory × List PolicyCategory :=
  let priority_order := priorityOf challenge_code buckets
  let final_order := priority_order.foldl addUnique []
  let final_order := buckets.foldl addUnique final_order
  (final_order, priority_order)

/-- The submit-button pipeline of the source: normalize, halt with no result
when the authority code is `Unsure` (`st.stop()`), otherwise determine
buckets and apply the overlay, returning
`(final_order, priority_list, note, normalized inputs)`. -/
def run_pipeline (sa sc sm sch : String) :
    Option (List PolicyCategory × List PolicyCategory × String ×
      (Authority × Capacity × Market × Challenge)) :=
  let n := normalize_inputs sa sc sm sch
  if n.1 = Authority.Unsure then none
  else
    let r := determine_buckets n.1 n.2.1 n.2.2.1 n.2.2.2
    let f := apply_priority_overlay n.2.2.2 r.1
    some (f.1, f.2, r.2, n)

/-- Claim C1: with Minimal capacity, `determine_buckets` returns exactly
`[FoundationBuilding]` with the minimal-capacity note for every authority,
market, and challenge, and the priority overlay leaves that order unchanged
with an empty priority list. -/
theorem minimal_capacity_absorption :
    ∀ (a : Authority) (m : Market) (ch : Challenge),
      determine_buckets a Capacity.Minimal m ch =
        ([PolicyCategory.FB],
         "Minimal capacity: prioritize low-cost/no-cost foundation-building activities.") ∧
      apply_priority_overlay ch (determine_buckets a Capacity.Minimal m ch).1 =
        ([PolicyCategory.FB], []) := by decide

/-- Claim C3: with capacity not Minimal and a Weak market, the Determiner's
bucket list always contains FoundationBuilding, contains
PreservationStabilization exactly when capacity is Moderate or Strong and the
challenge is Quality or Multiple, carries the weak-market note, and contains
no other category. -/
theorem weak_market_floor :
    ∀ (a : Authority) (c : Capacity) (ch : Challenge),
      c ≠ Capacity.Minimal →
      PolicyCategory.FB ∈ (determine_buckets a c Market.Weak ch).1 ∧
      (PolicyCategory.PS ∈ (determine_buckets a c Market.Weak ch).1 ↔
        (c = Capacity.Moderate ∨ c = Capacity.Strong) ∧
        (ch = Challenge.Quality ∨ ch = Challenge.Multiple)) ∧
      (determine_buckets a c Market.Weak ch).2 =
        "Weak market: prioritize foundation-building; add preservation if capacity and quality risk exist." ∧
      ∀ b ∈ (determine_buckets a c Market.Weak ch).1,
        b = PolicyCategory.FB ∨ b = PolicyCategory.PS := by decide

/-- Witness for C3 at (Strong, Moderate, Quality). -/
theorem weak_market_floor_witness :
    Capacity.Moderate ≠ Capacity.Minimal ∧
    PolicyCategory.FB ∈ (determine_buckets Authority.Strong Capacity.Moderate
      Market.Weak Challenge.Quality).1 :=
  ⟨by decide, (weak_market_floor Authority.Strong Capacity.Moderate
    Challenge.Quality (by decide)).1⟩

/-- Claim C5: for every normalized tuple with authority other than Unsure,
`determine_buckets` followed by `apply_priority_overlay` yields a non-empty,
duplicate-free ordered list of categories. -/
theorem engine_totality :
    ∀ (a : Authority) (c : Capacity) (m : Market) (ch : Challenge),
      a ≠ Authority.Unsure →
      (apply_priority_overlay ch (determine_buckets a c m ch).1).1 ≠ [] ∧
      ((apply_priority_overlay ch (determine_buckets a c m ch).1).1).Nodup := by
  decide

/-- Witness for C5 at (Strong, Strong, Hot, Supply). -/
theorem engine_totality_witness :
    Authority.Strong ≠ Authority.Unsure ∧
    (apply_priority_overlay Challenge.Supply
      (determine_buckets Authority.Strong Capacity.Strong Market.Hot
        Challenge.Supply).1).1 ≠ [] :=
  ⟨by decide, (engine_totality Authority.Strong Capacity.Strong Market.Hot
    Challenge.Supply (by decide)).1⟩

/-- Claim C7: on the normalized tuple (Limited, Moderate, Stable,
Affordability), `determine_buckets` returns the base buckets
`[DevelopmentIncentives, FinancialAssistance]`, and the overlay then gives
priority list `[FinancialAssistance]` and final order
`[FinancialAssistance, DevelopmentIncentives]`. -/
theorem scenario_limited_moderate_stable_affordability :
    determine_buckets Authority.Limited Capacity.Moderate Market.Stable
      Challenge.Affordability =
      ([PolicyCategory.DI, PolicyCategory.FA], coreNote) ∧
    apply_priority_overlay Challenge.Affordability
      [PolicyCategory.DI, PolicyCategory.FA] =
      ([PolicyCategory.FA, PolicyCategory.DI], [PolicyCategory.FA]) := by decide

/-- Claim C9: in the general case (capacity not Minimal, market not Weak)
every challenge branch puts DevelopmentIncentives in the Determiner's
output, for every authority value including Unsure. -/
theorem general_case_always_di :
    ∀ (a : Authority) (c : Capacity) (m : Market) (ch : Challenge),
      c ≠ Capacity.Minimal → m ≠ Market.Weak →
      PolicyCategory.DI ∈ (determine_buckets a c m ch).1 := by decide

/-- Witness for C9 at (Unsure, Moderate, Stable, Quality). -/
theorem general_case_always_di_witness :
    Capacity.Moderate ≠ Capacity.Minimal ∧ Market.Stable ≠ Market.Weak ∧
    PolicyCategory.DI ∈ (determine_buckets Authority.Unsure Capacity.Moderate
      Market.Stable Challenge.Quality).1 :=
  ⟨by decide, by decide, general_case_always_di Authority.Unsure
    Capacity.Moderate Market.Stable Challenge.Quality (by decide) (by decide)⟩

/-- Characterization of the authority line of the normalizer. -/
lemma authority_code_char (s : String) :
    (authority_code s = Authority.Unsure ↔ containsSubstr "Unsure" s = true) ∧
    (authority_code s = Authority.Limited ↔
      containsSubstr "Unsure" s = false ∧ containsSubstr "Limited" s = true) ∧
    (authority_code s = Authority.Strong ↔
      containsSubstr "Unsure" s = false ∧ containsSubstr "Limited" s = false) := by
  unfold authority_code
  cases h1 : containsSubstr "Unsure" s <;> cases h2 : containsSubstr "Limited" s <;>
    simp

/-- Characterization of the capacity line of the normalizer. -/
lemma capacity_code_char (s : String) :
    (capacity_code s = Capacity.Minimal ↔ containsSubstr "Minimal" s = true) ∧
    (capacity_code s = Capacity.Moderate ↔
      containsSubstr "Minimal" s = false ∧ containsSubstr "Moderate" s = true) ∧
    (capacity_code s = Capacity.Strong ↔
      containsSubstr "Minimal" s = false ∧ containsSubstr "Moderate" s = false) := by
  unfold capacity_code
  cases h1 : containsSubstr "Minimal" s <;> cases h2 : containsSubstr "Moderate" s <;>
    simp

/-- Characterization of the market line of the normalizer. -/
lemma market_code_char (s : String) :
    (market_code s = Market.Weak ↔ containsSubstr "Weak" s = true) ∧
    (market_code s = Market.Stable ↔
      containsSubstr "Weak" s = false ∧ containsSubstr "Stable" s = true) ∧
    (market_code s = Market.Hot ↔
      containsSubstr "Weak" s = false ∧ containsSubstr "Stable" s = false) := by
  unfold market_code
  cases h1 : containsSubstr "Weak" s <;> cases h2 : containsSubstr "Stable" s <;>
    simp

/-- Characterization of the challenge line of the normalizer. -/
lemma challenge_code_of_char (s : String) :
    (challenge_code_of s = Challenge.Multiple ↔ containsSubstr "Multiple" s = true) ∧
    (challenge_code_of s = Challenge.Quality ↔
      containsSubstr "Multiple" s = false ∧ containsSubstr "Quality" s = true) ∧
    (challenge_code_of s = Challenge.Affordability ↔
      containsSubstr "Multiple" s = false ∧ containsSubstr "Quality" s = false ∧
      containsSubstr "Affordability" s = true) ∧
    (challenge_code_of s = Challenge.Supply ↔
      containsSubstr "Multiple" s = false ∧ containsSubstr "Quality" s = false ∧
      containsSubstr "Affordability" s = false) := by
  unfold challenge_code_of
  cases h1 : containsSubstr "Multiple" s <;> cases h2 : containsSubstr "Quality" s <;>
    cases h3 : containsSubstr "Affordability" s <;> simp

/-- Claim C6: `normalize_inputs` classifies each raw string by substring
containment with first-match-wins precedence and a per-field default, and is
total: Authority is Unsure iff the string contains "Unsure", else Limited iff
it contains "Limited", else Strong; Capacity Minimal / Moderate / Strong;
Market Weak / Stable / Hot; Challenge Multiple / Quality / Affordability /
Supply, each by the analogous keyword chain. -/
theorem normalize_substring_policy (sa sc sm sch : String) :
    ((normalize_inputs sa sc sm sch).1 = Authority.Unsure ↔
      containsSubstr "Unsure" sa = true) ∧
    ((normalize_inputs sa sc sm sch).1 = Authority.Limited ↔
      containsSubstr "Unsure" sa = false ∧ containsSubstr "Limited" sa = true) ∧
    ((normalize_inputs sa sc sm sch).1 = Authority.Strong ↔
      containsSubstr "Unsure" sa = false ∧ containsSubstr "Limited" sa = false) ∧
    ((normalize_inputs sa sc sm sch).2.1 = Capacity.Minimal ↔
      containsSubstr "Minimal" sc = true) ∧
    ((normalize_inputs sa sc sm sch).2.1 = Capacity.Moderate ↔
      containsSubstr "Minimal" sc = false ∧ containsSubstr "Moderate" sc = true) ∧
    ((normalize_inputs sa sc sm sch).2.1 = Capacity.Strong ↔
      containsSubstr "Minimal" sc = false ∧ containsSubstr "Moderate" sc = false) ∧
    ((normalize_inputs sa sc sm sch).2.2.1 = Market.Weak ↔
      containsSubstr "Weak" sm = true) ∧
    ((normalize_inputs sa sc sm sch).2.2.1 = Market.Stable ↔
      containsSubstr "Weak" sm = false ∧ containsSubstr "Stable" sm = true) ∧
    ((normalize_inputs sa sc sm sch).2.2.1 = Market.Hot ↔
      containsSubstr "Weak" sm = false ∧ containsSubstr "Stable" sm = false) ∧
    ((normalize_inputs sa sc sm sch).2.2.2 = Challenge.Multiple ↔
      containsSubstr "Multiple" sch = true) ∧
    ((normalize_inputs sa sc sm sch).2.2.2 = Challenge.Quality ↔
      containsSubstr "Multiple" sch = false ∧ containsSubstr "Quality" sch = true) ∧
    ((normalize_inputs sa sc sm sch).2.2.2 = Challenge.Affordability ↔
      containsSubstr "Multiple" sch = false ∧ containsSubstr "Quality" sch = false ∧
      containsSubstr "Affordability" sch = true) ∧
    ((normalize_inputs sa sc sm sch).2.2.2 = Challenge.Supply ↔
      containsSubstr "Multiple" sch = false ∧ containsSubstr "Quality" sch = false ∧
      containsSubstr "Affordability" sch = false) :=
  ⟨(authority_code_char sa).1, (authority_code_char sa).2.1,
   (authority_code_char sa).2.2,
   (capacity_code_char sc).1, (capacity_code_char sc).2.1,
   (capacity_code_char sc).2.2,
   (market_code_char sm).1, (market_code_char sm).2.1,
   (market_code_char sm).2.2,
   (challenge_code_of_char sch).1, (challenge_code_of_char sch).2.1,
   (challenge_code_of_char sch).2.2.1, (challenge_code_of_char sch).2.2.2⟩

/-- Instantiation of C6 on the UI's Scenario 2 answer strings. -/
theorem normalize_substring_policy_witness :
    (normalize_inputs "Limited Local Authority (Dillon Rule - state restricts key areas; significant preemptions)"
        "Moderate Capacity (limited budget, small or inexperienced staff)"
        "Stable Market" "Affordability Crisis").1 = Authority.Unsure ↔
      containsSubstr "Unsure"
        "Limited Local Authority (Dillon Rule - state restricts key areas; significant preemptions)" = true :=
  (normalize_substring_policy
    "Limited Local Authority (Dillon Rule - state restricts key areas; significant preemptions)"
    "Moderate Capacity (limited budget, small or inexperienced staff)"
    "Stable Market" "Affordability Crisis").1

/-- Claim C2: the pipeline yields no result exactly when the normalized
authority code is Unsure, and for every other authority code it runs to
completion and returns a full result. -/
theorem pipeline_halts_iff_unsure (sa sc sm sch : String) :
    (run_pipeline sa sc sm sch = none ↔
      (normalize_inputs sa sc sm sch).1 = Authority.Unsure) ∧
    ((normalize_inputs sa sc sm sch).1 ≠ Authority.Unsure →
      (run_pipeline sa sc sm sch).isSome = true) := by
  by_cases h : authority_code sa = Authority.Unsure <;>
    simp [run_pipeline, normalize_inputs, h]

/-- Instantiation of C2: on an "Unsure" authority answer the pipeline
returns no result. -/
theorem pipeline_halts_iff_unsure_witness :
    run_pipeline "Unsure"
      "Minimal Capacity (near-zero budget, minimal staff)"
      "Hot Market" "Supply Shortage" = none :=
  (pipeline_halts_iff_unsure "Unsure"
    "Minimal Capacity (near-zero budget, minimal staff)"
    "Hot Market" "Supply Shortage").1.mpr (by decide)

/-- Claim C8: the full pipeline is deterministic — two invocations on equal
raw input strings return equal results (same final order, priority list,
note, and normalized tuple), with no hidden state. -/
theorem pipeline_deterministic (sa sc sm sch sa' sc' sm' sch' : String)
    (ha : sa = sa') (hc : sc = sc') (hm : sm = sm') (hch : sch = sch') :
    run_pipeline sa sc sm sch = run_pipeline sa' sc' sm' sch' := by
  subst ha; subst hc; subst hm; subst hch; rfl

/-- Witness for C8 on concrete equal invocations. -/
theorem pipeline_deterministic_witness :
    "Hot Market" = "Hot Market" ∧
    run_pipeline "Strong Local Authority" "Strong Capacity" "Hot Market"
        "Supply Shortage" =
      run_pipeline "Strong Local Authority" "Strong Capacity" "Hot Market"
        "Supply Shortage" :=
  ⟨rfl, pipeline_deterministic _ _ _ _ _ _ _ _ rfl rfl rfl rfl⟩

/-- Folding the guarded insert over a duplicate-free list appends exactly
the elements not already in the accumulator, in order. -/
lemma foldl_addUnique_eq (bs : List PolicyCategory) :
    bs.Nodup → ∀ acc,
      bs.foldl addUnique acc = acc ++ bs.filter fun b => decide (b ∉ acc) := by
  induction bs with
  | nil => intro _ acc; simp
  | cons x xs ih =>
    intro h acc
    obtain ⟨hx, hxs⟩ := List.nodup_cons.mp h
    simp only [List.foldl_cons, List.filter_cons]
    by_cases hxa : x ∈ acc
    · rw [show addUnique acc x = acc from if_pos hxa, ih hxs acc]
      simp [hxa]
    · rw [show addUnique acc x = acc ++ [x] from if_neg hxa, ih hxs (acc ++ [x])]
      have hfil : (xs.filter fun b => decide (b ∉ acc ++ [x])) =
          xs.filter fun b => decide (b ∉ acc) := by
        apply List.filter_congr
        intro b hb
        have hbx : b ≠ x := fun e => hx (e ▸ hb)
        simp [List.mem_append, hbx]
      rw [hfil]
      simp [hxa, List.append_assoc]

/-- The priority list built by the overlay has no duplicates. -/
lemma priorityOf_nodup (ch : Challenge) (bs : List PolicyCategory) :
    (priorityOf ch bs).Nodup := by
  cases ch <;> simp only [priorityOf]
  case Supply => split_ifs <;> simp
  case Affordability => split_ifs <;> simp
  case Quality => simp
  case Multiple => simp

/-- Every element of the priority list comes from the bucket list. -/
lemma priorityOf_subset (ch : Challenge) (bs : List PolicyCategory) :
    ∀ x ∈ priorityOf ch bs, x ∈ bs := by
  intro x hx
  cases ch <;> simp only [priorityOf] at hx
  case Supply =>
    rcases List.mem_append.mp hx with hx' | hx' <;> split_ifs at hx' <;> simp_all
  case Affordability =>
    rcases List.mem_append.mp hx with hx' | hx' <;> split_ifs at hx' <;> simp_all
  case Quality => exact absurd hx (List.not_mem_nil x)
  case Multiple => exact absurd hx (List.not_mem_nil x)

/-- The priority list depends on the bucket list only through membership. -/
lemma priorityOf_congr (ch : Challenge) {bs bs' : List PolicyCategory}
    (h : ∀ x, x ∈ bs ↔ x ∈ bs') : priorityOf ch bs = priorityOf ch bs' := by
  cases ch <;> simp only [priorityOf, h]

/-- The second component of the overlay is the priority list. -/
lemma overlay_snd (ch : Challenge) (bs : List PolicyCategory) :
    (apply_priority_overlay ch bs).2 = priorityOf ch bs := rfl

/-- Structure of the overlay's final order on duplicate-free input: the
priority list followed by the non-priority buckets in input order. -/
lemma overlay_fst (ch : Challenge) (bs : List PolicyCategory) (h : bs.Nodup) :
    (apply_priority_overlay ch bs).1 =
      priorityOf ch bs ++
        bs.filter fun b => decide (b ∉ priorityOf ch bs) := by
  show bs.foldl addUnique ((priorityOf ch bs).foldl addUnique []) = _
  rw [foldl_addUnique_eq (priorityOf ch bs) (priorityOf_nodup ch bs) [],
    List.nil_append]
  have hself : ((priorityOf ch bs).filter fun b =>
      decide (b ∉ ([] : List PolicyCategory))) = priorityOf ch bs :=
    List.filter_eq_self.mpr (fun a _ => by simp)
  rw [hself, foldl_addUnique_eq bs h (priorityOf ch bs)]

/-- The overlay's final order has the same members as its input. -/
lemma mem_overlay_fst (ch : Challenge) (bs : List PolicyCategory)
    (h : bs.Nodup) (x : PolicyCategory) :
    x ∈ (apply_priority_overlay ch bs).1 ↔ x ∈ bs := by
  rw [overlay_fst ch bs h]
  simp only [List.mem_append, List.mem_filter, decide_eq_true_eq]
  constructor
  · rintro (hp | ⟨hb, _⟩)
    · exact priorityOf_subset ch bs x hp
    · exact hb
  · intro hb
    by_cases hp : x ∈ priorityOf ch bs
    · exact Or.inl hp
    · exact Or.inr ⟨hb, hp⟩

/-- The overlay's final order is duplicate-free on duplicate-free input. -/
lemma overlay_fst_nodup (ch : Challenge) (bs : List PolicyCategory)
    (h : bs.Nodup) : ((apply_priority_overlay ch bs).1).Nodup := by
  rw [overlay_fst ch bs h]
  refine List.Nodup.append (priorityOf_nodup ch bs) (h.filter _) ?_
  rw [List.disjoint_left]
  intro a ha hafil
  have := (List.mem_filter.mp hafil).2
  simp only [decide_eq_true_eq] at this
  exact this ha

/-- Claim C4: for every challenge code and duplicate-free bucket list, the
priority list is an order-preserving sub-sequence of the final order, the
final order is a permutation of the input with the priority elements pulled
to the front and the remainder in input order, and for Quality or Multiple
the priority list is empty. -/
theorem overlay_order_laws (ch : Challenge) (bs : List PolicyCategory)
    (h : bs.Nodup) :
    ((apply_priority_overlay ch bs).2).Sublist (apply_priority_overlay ch bs).1 ∧
    ((apply_priority_overlay ch bs).1).Perm bs ∧
    (apply_priority_overlay ch bs).1 =
      (apply_priority_overlay ch bs).2 ++
        (bs.filter fun b => decide (b ∉ (apply_priority_overlay ch bs).2)) ∧
    ((ch = Challenge.Quality ∨ ch = Challenge.Multiple) →
      (apply_priority_overlay ch bs).2 = []) := by
  refine ⟨?_, ?_, ?_, ?_⟩
  · rw [overlay_snd, overlay_fst ch bs h]
    exact List.sublist_append_left _ _
  · exact (List.perm_ext_iff_of_nodup (overlay_fst_nodup ch bs h) h).mpr
      (mem_overlay_fst ch bs h)
  · rw [overlay_snd]
    exact overlay_fst ch bs h
  · intro hch
    rw [overlay_snd]
    rcases hch with rfl | rfl <;> rfl

/-- Witness for C4 at challenge Affordability and buckets [RS, DI, FA]. -/
theorem overlay_order_laws_witness :
    ([PolicyCategory.RS, PolicyCategory.DI, PolicyCategory.FA] :
      List PolicyCategory).Nodup ∧
    ((apply_priority_overlay Challenge.Affordability
        [PolicyCategory.RS, PolicyCategory.DI, PolicyCategory.FA]).2).Sublist
      (apply_priority_overlay Challenge.Affordability
        [PolicyCategory.RS, PolicyCategory.DI, PolicyCategory.FA]).1 :=
  ⟨by decide, (overlay_order_laws Challenge.Affordability
    [PolicyCategory.RS, PolicyCategory.DI, PolicyCategory.FA] (by decide)).1⟩

/-- Claim C10: the overlay is idempotent — feeding the final order back in
with the same challenge code reproduces the same final order and priority
list — and for Quality or Multiple the final order is the input unchanged. -/
theorem priority_overlay_idempotent (ch : Challenge)
    (bs : List PolicyCategory) (h : bs.Nodup) :
    apply_priority_overlay ch (apply_priority_overlay ch bs).1 =
      apply_priority_overlay ch bs ∧
    ((ch = Challenge.Quality ∨ ch = Challenge.Multiple) →
      (apply_priority_overlay ch bs).1 = bs) := by
  constructor
  · have hn' : ((apply_priority_overlay ch bs).1).Nodup :=
      overlay_fst_nodup ch bs h
    have hP : priorityOf ch (apply_priority_overlay ch bs).1 =
        priorityOf ch bs :=
      priorityOf_congr ch (mem_overlay_fst ch bs h)
    have h2 : (apply_priority_overlay ch (apply_priority_overlay ch bs).1).2 =
        (apply_priority_overlay ch bs).2 := by
      rw [overlay_snd, overlay_snd, hP]
    have h1 : (apply_priority_overlay ch (apply_priority_overlay ch bs).1).1 =
        (apply_priority_overlay ch bs).1 := by
      rw [overlay_fst ch _ hn', hP, overlay_fst ch bs h, List.filter_append]
      have e1 : ((priorityOf ch bs).filter fun b =>
          decide (b ∉ priorityOf ch bs)) = [] :=
        List.filter_eq_nil_iff.mpr (fun a ha => by simp [ha])
      have e2 : ((bs.filter fun b => decide (b ∉ priorityOf ch bs)).filter
          fun b => decide (b ∉ priorityOf ch bs)) =
          bs.filter fun b => decide (b ∉ priorityOf ch bs) :=
        List.filter_eq_self.mpr (fun a ha => (List.mem_filter.mp ha).2)
      rw [e1, e2, List.nil_append]
    exact Prod.ext h1 h2
  · intro hch
    have hP : priorityOf ch bs = [] := by rcases hch with rfl | rfl <;> rfl
    rw [overlay_fst ch bs h, hP, List.nil_append]
    exact List.filter_eq_self.mpr (fun a _ => by simp)

/-- Witness for C10 at challenge Supply and buckets [RS, DI]. -/
theorem priority_overlay_idempotent_witness :
    ([PolicyCategory.RS, PolicyCategory.DI] : List PolicyCategory).Nodup ∧
    apply_priority_overlay Challenge.Supply
        (apply_priority_overlay Challenge.Supply
          [PolicyCategory.RS, PolicyCategory.DI]).1 =
      apply_priority_overlay Challenge.Supply
        [PolicyCategory.RS, PolicyCategory.DI] :=
  ⟨by decide, (priority_overlay_idempotent Challenge.Supply
    [PolicyCategory.RS, PolicyCategory.DI] (by decide)).1⟩

end HousingCompass
